import Mathlib

/-!
# azkvquery: a shallow embedding of `azkvquery.go`

The program reads two configuration values (flags, falling back to environment
variables), obtains a credential, builds a Key Vault client, asks for one
secret and dispatches on the outcome.  Every effect of the program is recorded
as an `Event` in a trace; a function that may end the process returns a
`Step`, which is either a normal return or a halt.

External collaborators (flag parsing, the process environment, the credential
provider, the Key Vault client and its pager) are inputs of the model,
gathered in `World`.
-/

namespace Azkvquery

/-! ## Go errors -/

/-- The part of `*azcore.ResponseError` the program reads: its `StatusCode`,
together with the text of its `Error()` method. -/
structure ResponseError where
  StatusCode : Int
  text : String
  deriving DecidableEq, Repr

/-- A non-nil Go `error` value and its `Unwrap` chain.  A nil `error` is
`none : Option GoError`. -/
inductive GoError where
  /-- a `*azcore.ResponseError` -/
  | response (e : ResponseError)
  /-- an error that wraps nothing -/
  | plain (text : String)
  /-- an error with an `Unwrap` method -/
  | wrapped (text : String) (inner : GoError)
  deriving DecidableEq, Repr

/-- The `Error()` method: the text of the outermost error. -/
def GoError.Error : GoError → String
  | .response e => e.text
  | .plain t => t
  | .wrapped t _ => t

/-- The first `*azcore.ResponseError` of the chain, when there is one. -/
def GoError.findResponse : GoError → Option ResponseError
  | .response e => some e
  | .plain _ => none
  | .wrapped _ inner => inner.findResponse

/-- `errors.As(err, &respErr)` for a target of type `*azcore.ResponseError`:
`some e` when it reports true and stores `e`; `none` when it reports false,
which it does for a nil `err`. -/
def errorsAs : Option GoError → Option ResponseError
  | none => none
  | some err => err.findResponse

/-- The verb `%v` applied to an `error`: `<nil>` for nil, else `Error()`. -/
def fmtV : Option GoError → String
  | none => "<nil>"
  | some err => err.Error

/-- The verb `%d` applied to an `int`. -/
def fmtD (n : Int) : String := toString n

/-- Go's `http.StatusNotFound`. -/
def StatusNotFound : Int := 404

/-- Go's `http.StatusForbidden`. -/
def StatusForbidden : Int := 403

/-! ## SDK values -/

/-- An `azsecrets.SecretItem`; `ID` is a pointer and may be nil. -/
structure SecretItem where
  ID : Option String
  deriving DecidableEq, Repr

/-- One page of the list-secrets pager; `Value` is a slice of pointers to
`SecretItem`, each of which may be nil. -/
structure Page where
  Value : List (Option SecretItem)
  deriving DecidableEq, Repr

/-- An `azsecrets.GetSecretResponse`; `Value` is a pointer and may be nil. -/
structure GetSecretResponse where
  Value : Option String
  deriving DecidableEq, Repr

/-! ## Processes -/

/-- An observable effect of the program. -/
inductive Event where
  /-- bytes written to standard output by one `fmt.Printf` -/
  | stdout (s : String)
  /-- one message handed to the `log` package (written to standard error),
  without the timestamp header the logger prepends -/
  | log (s : String)
  /-- `getopt.Usage()` -/
  | usage
  /-- `azidentity.NewDefaultAzureCredential(nil)` -/
  | newCredential
  /-- `azsecrets.NewClient(vaultURI, cred, nil)` -/
  | newClient (vaultURI : String)
  /-- `client.GetSecret(ctx, name, version, nil)` -/
  | getSecret (name version : String)
  /-- `c.NewListSecretsPager(nil)` -/
  | newPager
  /-- `pager.NextPage(ctx)` -/
  | nextPage
  deriving DecidableEq, Repr

/-- How a process ends: `os.Exit(code)` (a return from `main` is `exit 0`,
`log.Fatal*` is `exit 1`), or an unrecovered runtime panic. -/
inductive Halt where
  | exit (code : Nat)
  | panic
  deriving DecidableEq, Repr

/-- The exit status of the process; the Go runtime exits with status 2 after
an unrecovered panic. -/
def Halt.exitCode : Halt → Nat
  | .exit code => code
  | .panic => 2

/-- The outcome of running a function: it returns a value, or the process
halts inside it.  Both carry the trace so far. -/
inductive Step (α : Type) where
  | ret (a : α) (tr : List Event)
  | halt (h : Halt) (tr : List Event)
  deriving DecidableEq, Repr

/-- The outcome of running the whole program. -/
structure Run where
  halt : Halt
  trace : List Event
  deriving DecidableEq, Repr

/-- Everything written to standard output, in order. -/
def stdoutOf : List Event → String
  | [] => ""
  | .stdout s :: rest => s ++ stdoutOf rest
  | _ :: rest => stdoutOf rest

/-- The messages handed to the logger, in order. -/
def logsOf : List Event → List String
  | [] => []
  | .log s :: rest => s :: logsOf rest
  | _ :: rest => logsOf rest

/-- Whether the event belongs to the listing operation. -/
def Event.isListing : Event → Bool
  | .newPager => true
  | .nextPage => true
  | _ => false

/-- Whether the event is a call to the credential provider or the store. -/
def Event.isExternalCall : Event → Bool
  | .newCredential => true
  | .newClient _ => true
  | .getSecret _ _ => true
  | .newPager => true
  | .nextPage => true
  | _ => false

/-- The number of pages fetched. -/
def fetches (tr : List Event) : Nat := tr.count Event.nextPage

/-! ## The program -/

/-- The values of the three options after `getopt.Parse()`. -/
structure Flags where
  optHelp : Bool
  optKvault : String
  optSname : String
  deriving DecidableEq, Repr

/-- The process environment: `os.LookupEnv`, `none` when the variable is not
set. -/
abbrev Env := String → Option String

/-- `printUsage`: `getopt.Usage()` followed by `os.Exit(0)`. -/
def printUsage {α : Type} (tr : List Event) : Step α :=
  .halt (.exit 0) (tr ++ [.usage])

/-- `getConfig`. -/
def getConfig (fl : Flags) (env : Env) (tr : List Event) : Step (String × String) :=
  if fl.optHelp then printUsage tr
  else
    match (if fl.optKvault = "" then env "AZURE_KEY_VAULT_URI" else some fl.optKvault) with
    | none => printUsage tr
    | some optKvault =>
      match (if fl.optSname = "" then env "AZURE_SECRET_NAME" else some fl.optSname) with
      | none => printUsage tr
      | some optSname => .ret (optKvault, optSname) tr

/-- The line `fmt.Printf("Secret ID: %s\n", id)` writes. -/
def secretIdLine (id : String) : String := "Secret ID: " ++ id ++ "\n"

/-- The inner loop of `listSecrets`, `for _, secret := range page.Value`:
dereferencing a nil `secret` or a nil `secret.ID` panics. -/
def printPage : List (Option SecretItem) → List Event → Step Unit
  | [], tr => .ret () tr
  | none :: _, tr => .halt .panic tr
  | some secret :: rest, tr =>
    match secret.ID with
    | none => .halt .panic tr
    | some id => printPage rest (tr ++ [.stdout (secretIdLine id)])

/-- The outer loop of `listSecrets`, `for pager.More()`: the pager is the list
of the outcomes of its remaining `NextPage` calls, and `More()` holds while
that list is not empty. -/
def listLoop : List (Except GoError Page) → List Event → Step Unit
  | [], tr => .ret () tr
  | .error err :: _, tr => .halt (.exit 1) (tr ++ [.nextPage, .log err.Error])
  | .ok page :: rest, tr =>
    match printPage page.Value (tr ++ [.nextPage]) with
    | .ret _ tr2 => listLoop rest tr2
    | .halt h tr2 => .halt h tr2

/-- `listSecrets`. -/
def listSecrets (pager : List (Except GoError Page)) (tr : List Event) : Step Unit :=
  listLoop pager (tr ++ [.newPager])

/-- The collaborators of one run of the program. -/
structure World where
  /-- the option values `getopt.Parse()` leaves -/
  flags : Flags
  /-- the process environment -/
  env : Env
  /-- the error of `azidentity.NewDefaultAzureCredential` -/
  credErr : Option GoError
  /-- the error of `azsecrets.NewClient` -/
  clientErr : Option GoError
  /-- the store's `GetSecret(name, version)` -/
  getSecret : String → String → GetSecretResponse × Option GoError
  /-- the outcomes of the `NextPage` calls of the list-secrets pager -/
  pager : List (Except GoError Page)

/-- The last statement of `main`, `fmt.Printf("%s: %s\n", mySecretName, *resp.Value)`,
and the return from `main`. -/
def printSecret (mySecretName : String) (resp : GetSecretResponse) (tr : List Event) : Run :=
  match resp.Value with
  | none => ⟨.panic, tr⟩
  | some value => ⟨.exit 0, tr ++ [.stdout (mySecretName ++ ": " ++ value ++ "\n")]⟩

/-- The body of `main` from the `errors.As` test on. -/
def dispatch (mySecretName : String) (resp : GetSecretResponse) (err : Option GoError)
    (pager : List (Except GoError Page)) (tr : List Event) : Run :=
  match errorsAs err with
  | some respErr =>
    if respErr.StatusCode = StatusNotFound then
      match listSecrets pager (tr ++ [.log "Secret not found\n"]) with
      | .halt h tr2 => ⟨h, tr2⟩
      | .ret _ tr2 => printSecret mySecretName resp tr2
    else if respErr.StatusCode = StatusForbidden then
      ⟨.exit 1, tr ++ [.log "No permission to access this secret\n"]⟩
    else
      ⟨.exit 1, tr ++ [.log ("Unrecognized http error code " ++ fmtD respErr.StatusCode)]⟩
  | none =>
    ⟨.exit 1, tr ++ [.log ("Error getting secret from keyvault: " ++ fmtV err)]⟩

/-- `main`. -/
def main (w : World) : Run :=
  match getConfig w.flags w.env [] with
  | .halt h tr => ⟨h, tr⟩
  | .ret (vaultURI, mySecretName) tr =>
    match w.credErr with
    | some err =>
      ⟨.exit 1, tr ++ [.newCredential, .log ("failed to obtain a credential: " ++ fmtV (some err))]⟩
    | none =>
      match w.clientErr with
      | some err =>
        ⟨.exit 1, tr ++ [.newCredential, .newClient vaultURI,
          .log ("key vault connection failed: " ++ fmtV (some err))]⟩
      | none =>
        let version := ""
        let (resp, err) := w.getSecret mySecretName version
        dispatch mySecretName resp err w.pager
          (tr ++ [.newCredential, .newClient vaultURI, .getSecret mySecretName version])

/-! ## Vocabulary of the specification -/

/-- The payloads of the writes to standard output, one per `fmt.Printf`. -/
def writesOf : List Event → List String
  | [] => []
  | .stdout s :: rest => s :: writesOf rest
  | _ :: rest => writesOf rest

/-- The identifiers a page carries, in the order of the page. -/
def Page.ids (p : Page) : List String :=
  p.Value.filterMap fun item => item.bind SecretItem.ID

/-- Every item of the page is there and carries an identifier. -/
def Page.allPresent (p : Page) : Prop :=
  ∀ item ∈ p.Value, ∃ id, item = some ⟨some id⟩

/-- The identifiers of a sequence of pages: page order, then in-page order. -/
def idsOf (pages : List Page) : List String := pages.flatMap Page.ids

/-- The text made of one line `Secret ID: <id>` per identifier. -/
def listing : List String → String
  | [] => ""
  | id :: rest => "Secret ID: " ++ id ++ "\n" ++ listing rest

/-- The run resolves its configuration to the secret name `name`, obtains a
credential and a client, and `GetSecret(name, "")` answers `(resp, err)`. -/
def Answered (w : World) (name : String) (resp : GetSecretResponse)
    (err : Option GoError) : Prop :=
  ∃ vaultURI, getConfig w.flags w.env [] = .ret (vaultURI, name) [] ∧
    w.credErr = none ∧ w.clientErr = none ∧ w.getSecret name "" = (resp, err)

/-- The decimal numeral of `c` occurs in the message. -/
def mentionsCode (msg : String) (c : Int) : Prop :=
  (toString c).data <:+: msg.data

/-- The events of the listing loop over pages that are all fetched. -/
def loopEvents : List Page → List Event
  | [] => []
  | p :: rest =>
    (Event.nextPage :: p.ids.map fun id => Event.stdout (secretIdLine id)) ++ loopEvents rest

/-! ## Test fixtures -/

/-- The environment in which the two variables the program reads are as given
and no other variable is set. -/
def envOf (kv sn : Option String) : Env := fun k =>
  if k = "AZURE_KEY_VAULT_URI" then kv
  else if k = "AZURE_SECRET_NAME" then sn
  else none

/-- A page whose items all carry an identifier. -/
def pageOf (ids : List String) : Page := ⟨ids.map fun id => some ⟨some id⟩⟩

/-- The store of the tests: it answers every `GetSecret` with the same pair. -/
def storeOf (resp : GetSecretResponse) (err : Option GoError) :
    String → String → GetSecretResponse × Option GoError :=
  fun _ _ => (resp, err)

/-- A run asking the vault `https://v` for the secret `foo`, both given as
flags, with working credential and client. -/
def worldOf (resp : GetSecretResponse) (err : Option GoError)
    (pager : List (Except GoError Page)) : World :=
  ⟨⟨false, "https://v", "foo"⟩, envOf none none, none, none, storeOf resp err, pager⟩

/-- A run with the vault given as a flag and `AZURE_KEY_VAULT_URI` set, and
with no secret name: the flag is empty and `AZURE_SECRET_NAME` is not set. -/
def worldNoName : World :=
  ⟨⟨false, "https://v", ""⟩, envOf (some "https://env") none, none, none,
    storeOf ⟨some "bar"⟩ none, [.ok (pageOf ["s1"])]⟩

/-- The trace of `worldOf` up to the answer of `GetSecret`. -/
def askedFoo : List Event :=
  [.newCredential, .newClient "https://v", .getSecret "foo" ""]

end Azkvquery

namespace Azkvquery

/-! ## Traces -/

theorem stdoutOf_append (a b : List Event) :
    stdoutOf (a ++ b) = stdoutOf a ++ stdoutOf b := by
  induction a with
  | nil => simp [stdoutOf]
  | cons e rest ih => cases e <;> simp [stdoutOf, ih, String.append_assoc]

theorem writesOf_append (a b : List Event) :
    writesOf (a ++ b) = writesOf a ++ writesOf b := by
  induction a with
  | nil => simp [writesOf]
  | cons e rest ih => cases e <;> simp [writesOf, ih]

theorem logsOf_append (a b : List Event) :
    logsOf (a ++ b) = logsOf a ++ logsOf b := by
  induction a with
  | nil => simp [logsOf]
  | cons e rest ih => cases e <;> simp [logsOf, ih]

theorem fetches_append (a b : List Event) :
    fetches (a ++ b) = fetches a + fetches b := by
  simp [fetches, List.count_append]

/-- The writes for the identifiers `ids` of one page make up their listing. -/
theorem stdoutOf_lines (ids : List String) :
    stdoutOf (ids.map fun id => Event.stdout (secretIdLine id)) = listing ids := by
  induction ids with
  | nil => rfl
  | cons id rest ih =>
    simp only [List.map_cons, stdoutOf, listing, ih]
    rfl

theorem writesOf_lines (ids : List String) :
    writesOf (ids.map fun id => Event.stdout (secretIdLine id))
      = ids.map fun id => "Secret ID: " ++ id ++ "\n" := by
  induction ids with
  | nil => rfl
  | cons id rest ih =>
    simp only [List.map_cons, writesOf, ih]
    rfl

theorem logsOf_lines (ids : List String) :
    logsOf (ids.map fun id => Event.stdout (secretIdLine id)) = [] := by
  induction ids with
  | nil => rfl
  | cons id rest ih => simp [logsOf, ih]

theorem fetches_lines (ids : List String) :
    fetches (ids.map fun id => Event.stdout (secretIdLine id)) = 0 := by
  induction ids with
  | nil => rfl
  | cons id rest ih =>
    simp only [fetches] at ih
    simp [fetches, ih]

theorem listing_append (a b : List String) :
    listing (a ++ b) = listing a ++ listing b := by
  induction a with
  | nil => simp [listing]
  | cons id rest ih => simp [listing, ih, String.append_assoc]

/-! ## The listing loop -/

theorem printPage_present (items : List (Option SecretItem)) (tr : List Event)
    (h : ∀ item ∈ items, ∃ id, item = some ⟨some id⟩) :
    printPage items tr
      = .ret () (tr ++ (Page.ids ⟨items⟩).map fun id => Event.stdout (secretIdLine id)) := by
  induction items generalizing tr with
  | nil => simp [printPage, Page.ids]
  | cons item rest ih =>
    obtain ⟨id, rfl⟩ := h item (List.mem_cons_self _ _)
    have hrest : ∀ it ∈ rest, ∃ id, it = some ⟨some id⟩ :=
      fun it hit => h it (List.mem_cons_of_mem _ hit)
    simp only [printPage]
    rw [ih _ hrest]
    simp [Page.ids]

theorem listLoop_fetched (pages : List Page) (rest : List (Except GoError Page))
    (tr : List Event) (h : ∀ p ∈ pages, p.allPresent) :
    listLoop (pages.map Except.ok ++ rest) tr = listLoop rest (tr ++ loopEvents pages) := by
  induction pages generalizing tr with
  | nil => simp [loopEvents]
  | cons p ps ih =>
    have hp : p.allPresent := h p (List.mem_cons_self _ _)
    have hps : ∀ q ∈ ps, q.allPresent := fun q hq => h q (List.mem_cons_of_mem _ hq)
    simp only [List.map_cons, List.cons_append, listLoop]
    rw [printPage_present p.Value _ hp]
    simp only [List.append_eq]
    rw [ih _ hps]
    simp [loopEvents, List.append_assoc]

theorem stdoutOf_loopEvents (pages : List Page) :
    stdoutOf (loopEvents pages) = listing (idsOf pages) := by
  induction pages with
  | nil => rfl
  | cons p ps ih =>
    simp only [loopEvents, idsOf, List.flatMap_cons, listing_append] at ih ⊢
    rw [stdoutOf_append, ih]
    simp [stdoutOf, stdoutOf_lines]

theorem writesOf_loopEvents (pages : List Page) :
    writesOf (loopEvents pages) = (idsOf pages).map fun id => "Secret ID: " ++ id ++ "\n" := by
  induction pages with
  | nil => rfl
  | cons p ps ih =>
    simp only [loopEvents, idsOf, List.flatMap_cons, List.map_append] at ih ⊢
    rw [writesOf_append, ih]
    simp [writesOf, writesOf_lines]

theorem logsOf_loopEvents (pages : List Page) : logsOf (loopEvents pages) = [] := by
  induction pages with
  | nil => rfl
  | cons p ps ih =>
    simp only [loopEvents]
    rw [logsOf_append, ih]
    simp [logsOf, logsOf_lines]

theorem fetches_loopEvents (pages : List Page) : fetches (loopEvents pages) = pages.length := by
  induction pages with
  | nil => rfl
  | cons p ps ih =>
    simp only [loopEvents]
    rw [fetches_append, ih]
    have := fetches_lines p.ids
    simp only [fetches] at this
    simp [fetches, this, Nat.add_comm]

/-! ## From `main` to the dispatch -/

theorem main_eq_dispatch (w : World) (vaultURI mySecretName : String)
    (resp : GetSecretResponse) (err : Option GoError)
    (hcfg : getConfig w.flags w.env [] = .ret (vaultURI, mySecretName) [])
    (hcred : w.credErr = none) (hclient : w.clientErr = none)
    (hget : w.getSecret mySecretName "" = (resp, err)) :
    main w = dispatch mySecretName resp err w.pager
      [.newCredential, .newClient vaultURI, .getSecret mySecretName ""] := by
  simp [main, hcfg, hcred, hclient, hget]

theorem main_of_answered (w : World) (name : String) (resp : GetSecretResponse)
    (err : Option GoError) (h : Answered w name resp err) :
    ∃ vaultURI, main w = dispatch name resp err w.pager
      [.newCredential, .newClient vaultURI, .getSecret name ""] := by
  obtain ⟨vaultURI, hcfg, hcred, hclient, hget⟩ := h
  exact ⟨vaultURI, main_eq_dispatch w vaultURI name resp err hcfg hcred hclient hget⟩

theorem worldOf_answered (resp : GetSecretResponse) (err : Option GoError)
    (pager : List (Except GoError Page)) :
    Answered (worldOf resp err pager) "foo" resp err :=
  ⟨"https://v", by rfl, rfl, rfl, rfl⟩

/-- With `err == nil` the `errors.As` test fails and the `else` branch is taken. -/
theorem dispatch_nil (name : String) (resp : GetSecretResponse)
    (pager : List (Except GoError Page)) (tr : List Event) :
    dispatch name resp none pager tr
      = ⟨.exit 1, tr ++ [.log "Error getting secret from keyvault: <nil>"]⟩ := by
  rfl

/-- After a 404 and a listing without error, `main` goes on to its last
statement. -/
theorem dispatch_notFound (name : String) (resp : GetSecretResponse) (err : Option GoError)
    (respErr : ResponseError) (pages : List Page) (tr : List Event)
    (has : errorsAs err = some respErr) (h404 : respErr.StatusCode = 404)
    (h : ∀ p ∈ pages, p.allPresent) :
    dispatch name resp err (pages.map Except.ok) tr
      = printSecret name resp
          (tr ++ [.log "Secret not found\n"] ++ [.newPager] ++ loopEvents pages) := by
  have hl := listLoop_fetched pages [] (tr ++ [.log "Secret not found\n"] ++ [.newPager]) h
  simp only [List.append_nil, listLoop] at hl
  simp only [dispatch, has, h404, StatusNotFound, listSecrets, if_true, hl]

/-! ## The claims -/

/-- C1, evaluated on the code: for the name `foo` and a store that answers
`GetSecret` with the value `bar` and a nil error, the program writes nothing
to standard output, logs `Error getting secret from keyvault: <nil>` and exits
with code 1; it does not print `foo: bar`. -/
theorem main_success_exits_1 :
    main (worldOf ⟨some "bar"⟩ none [])
        = ⟨.exit 1, askedFoo ++ [.log "Error getting secret from keyvault: <nil>"]⟩ ∧
      (main (worldOf ⟨some "bar"⟩ none [])).halt.exitCode = 1 ∧
      stdoutOf (main (worldOf ⟨some "bar"⟩ none [])).trace = "" ∧
      stdoutOf (main (worldOf ⟨some "bar"⟩ none [])).trace ≠ "foo: bar\n" := by
  refine ⟨by rfl, by rfl, by rfl, by decide⟩

/-- C2, evaluated on the code: for the name `foo`, a store that answers
`GetSecret` with a 404 error and an empty response, and a pager that yields
the identifiers `s1`, `s2`, the program writes the two `Secret ID` lines and
then panics on the nil `resp.Value`, so the exit code is 2 and not 0. -/
theorem main_notFound_panics :
    (main (worldOf ⟨none⟩ (some (.response ⟨404, "not found"⟩)) [.ok (pageOf ["s1", "s2"])])).halt
        = .panic ∧
      (main (worldOf ⟨none⟩ (some (.response ⟨404, "not found"⟩))
        [.ok (pageOf ["s1", "s2"])])).halt.exitCode = 2 ∧
      stdoutOf (main (worldOf ⟨none⟩ (some (.response ⟨404, "not found"⟩))
        [.ok (pageOf ["s1", "s2"])])).trace = "Secret ID: s1\nSecret ID: s2\n" := by
  refine ⟨by rfl, by rfl, by rfl⟩

/-- C3 as stated fails: with both flags empty, `AZURE_KEY_VAULT_URI` set to the
empty string and `AZURE_SECRET_NAME` set to `foo`, `getConfig` returns to its
caller with an empty vault endpoint. -/
theorem getConfig_returns_empty_field :
    getConfig ⟨false, "", ""⟩ (envOf (some "") (some "foo")) [] = .ret ("", "foo") [] ∧
      ¬ ∀ (fl : Flags) (env : Env) (v s : String) (tr : List Event),
          getConfig fl env [] = .ret (v, s) tr → v ≠ "" ∧ s ≠ "" := by
  refine ⟨by rfl, fun h => ?_⟩
  exact (h ⟨false, "", ""⟩ (envOf (some "") (some "foo")) "" "foo" [] (by rfl)).1 rfl

/-- C3, amended: when `getConfig` returns to its caller, a returned field is
empty exactly when its flag is empty and its environment variable is set to
the empty string; in every other case the returned field is non-empty. -/
theorem getConfig_empty_field_iff (fl : Flags) (env : Env) (tr tr2 : List Event)
    (v s : String) (h : getConfig fl env tr = .ret (v, s) tr2) :
    (v = "" ↔ fl.optKvault = "" ∧ env "AZURE_KEY_VAULT_URI" = some "") ∧
      (s = "" ↔ fl.optSname = "" ∧ env "AZURE_SECRET_NAME" = some "") := by
  unfold getConfig at h
  split at h
  · simp [printUsage] at h
  · split at h
    · simp [printUsage] at h
    · rename_i kv hkv
      split at h
      · simp [printUsage] at h
      · rename_i sn hsn
        simp only [Step.ret.injEq, Prod.mk.injEq] at h
        obtain ⟨⟨rfl, rfl⟩, -⟩ := h
        constructor
        · by_cases hf : fl.optKvault = ""
          · simp only [hf, if_true] at hkv
            simp [hf, hkv]
          · simp only [hf, if_false, Option.some.injEq] at hkv
            subst hkv
            simp [hf]
        · by_cases hf : fl.optSname = ""
          · simp only [hf, if_true] at hsn
            simp [hf, hsn]
          · simp only [hf, if_false, Option.some.injEq] at hsn
            subst hsn
            simp [hf]

theorem getConfig_empty_field_iff_witness :
    getConfig ⟨false, "", "foo"⟩ (envOf (some "https://v") none) [] = .ret ("https://v", "foo") [] ∧
      (("https://v" = "" ↔
          (⟨false, "", "foo"⟩ : Flags).optKvault = "" ∧
            envOf (some "https://v") none "AZURE_KEY_VAULT_URI" = some "") ∧
        ("foo" = "" ↔
          (⟨false, "", "foo"⟩ : Flags).optSname = "" ∧
            envOf (some "https://v") none "AZURE_SECRET_NAME" = some "")) :=
  ⟨by rfl, getConfig_empty_field_iff ⟨false, "", "foo"⟩ (envOf (some "https://v") none) [] []
    "https://v" "foo" (by rfl)⟩

/-- C8: when the flag of one of the two required fields is empty and its
environment variable is not set, then whatever the other field is, the program
prints usage and exits with code 0, and that is all it does: no credential is
acquired, no client is built, and neither `GetSecret` nor a listing call is
issued. -/
theorem missing_field_prints_usage (w : World)
    (h : (w.flags.optKvault = "" ∧ w.env "AZURE_KEY_VAULT_URI" = none) ∨
      (w.flags.optSname = "" ∧ w.env "AZURE_SECRET_NAME" = none)) :
    main w = ⟨.exit 0, [.usage]⟩ ∧ (main w).halt.exitCode = 0 ∧
      ∀ e ∈ (main w).trace, e.isExternalCall = false := by
  have hmain : main w = ⟨.exit 0, [.usage]⟩ := by
    have hcfg : getConfig w.flags w.env [] = .halt (.exit 0) [.usage] := by
      unfold getConfig
      split
      · rfl
      · rcases h with ⟨hf, he⟩ | ⟨hf, he⟩
        · simp [hf, he, printUsage]
        · simp only [hf, he, if_true]
          split <;> rfl
    simp [main, hcfg]
  refine ⟨hmain, ?_, ?_⟩
  · rw [hmain]; rfl
  · rw [hmain]
    intro e he
    simp only [List.mem_singleton] at he
    subst he
    rfl

theorem missing_field_prints_usage_witness :
    ((worldNoName.flags.optKvault = "" ∧ worldNoName.env "AZURE_KEY_VAULT_URI" = none) ∨
        (worldNoName.flags.optSname = "" ∧ worldNoName.env "AZURE_SECRET_NAME" = none)) ∧
      main worldNoName = ⟨.exit 0, [.usage]⟩ :=
  ⟨Or.inr ⟨rfl, rfl⟩, (missing_field_prints_usage worldNoName (Or.inr ⟨rfl, rfl⟩)).1⟩

/-- C9: a non-empty flag value wins over the environment.  Whenever
`getConfig` returns, a field whose flag is non-empty is that flag value,
whatever its environment variable is (unset, empty or different), and a field
whose flag is empty is the value its environment variable is set to; and
`getConfig` does return when help is not asked for and each field has a
non-empty flag or a set environment variable. -/
theorem getConfig_flag_wins (fl : Flags) (env : Env) (tr : List Event) :
    (∀ v s tr2, getConfig fl env tr = .ret (v, s) tr2 →
        (fl.optKvault ≠ "" → v = fl.optKvault) ∧
        (fl.optSname ≠ "" → s = fl.optSname) ∧
        (fl.optKvault = "" → env "AZURE_KEY_VAULT_URI" = some v) ∧
        (fl.optSname = "" → env "AZURE_SECRET_NAME" = some s)) ∧
      (fl.optHelp = false →
        (fl.optKvault ≠ "" ∨ (env "AZURE_KEY_VAULT_URI").isSome) →
        (fl.optSname ≠ "" ∨ (env "AZURE_SECRET_NAME").isSome) →
        ∃ v s, getConfig fl env tr = .ret (v, s) tr) := by
  constructor
  · intro v s tr2 h
    unfold getConfig at h
    split at h
    · simp [printUsage] at h
    · split at h
      · simp [printUsage] at h
      · rename_i kv hkv
        split at h
        · simp [printUsage] at h
        · rename_i sn hsn
          simp only [Step.ret.injEq, Prod.mk.injEq] at h
          obtain ⟨⟨rfl, rfl⟩, -⟩ := h
          refine ⟨fun hf => ?_, fun hf => ?_, fun hf => ?_, fun hf => ?_⟩
          · simpa [hf] using hkv.symm
          · simpa [hf] using hsn.symm
          · simpa [hf] using hkv
          · simpa [hf] using hsn
  · intro hhelp hkv hsn
    have h1 : ∃ v, (if fl.optKvault = "" then env "AZURE_KEY_VAULT_URI" else some fl.optKvault)
        = some v := by
      by_cases hf : fl.optKvault = ""
      · rcases hkv with hkv | hkv
        · exact absurd hf hkv
        · obtain ⟨v, hv⟩ := Option.isSome_iff_exists.mp hkv
          exact ⟨v, by simp [hf, hv]⟩
      · exact ⟨fl.optKvault, by simp [hf]⟩
    have h2 : ∃ s, (if fl.optSname = "" then env "AZURE_SECRET_NAME" else some fl.optSname)
        = some s := by
      by_cases hf : fl.optSname = ""
      · rcases hsn with hsn | hsn
        · exact absurd hf hsn
        · obtain ⟨v, hv⟩ := Option.isSome_iff_exists.mp hsn
          exact ⟨v, by simp [hf, hv]⟩
      · exact ⟨fl.optSname, by simp [hf]⟩
    obtain ⟨v, hv⟩ := h1
    obtain ⟨s, hs⟩ := h2
    exact ⟨v, s, by simp [getConfig, hhelp, hv, hs]⟩

theorem getConfig_flag_wins_witness :
    getConfig ⟨false, "https://flag", ""⟩ (envOf (some "https://env") (some "foo")) []
        = .ret ("https://flag", "foo") [] ∧
      ((⟨false, "https://flag", ""⟩ : Flags).optKvault ≠ "" →
        "https://flag" = (⟨false, "https://flag", ""⟩ : Flags).optKvault) ∧
      ((⟨false, "https://flag", ""⟩ : Flags).optSname = "" →
        envOf (some "https://env") (some "foo") "AZURE_SECRET_NAME" = some "foo") :=
  ⟨by rfl,
    ((getConfig_flag_wins ⟨false, "https://flag", ""⟩
      (envOf (some "https://env") (some "foo")) []).1 "https://flag" "foo" [] (by rfl)).1,
    ((getConfig_flag_wins ⟨false, "https://flag", ""⟩
      (envOf (some "https://env") (some "foo")) []).1 "https://flag" "foo" [] (by rfl)).2.2.2⟩

/-- C5: when every page is fetched without error and every identifier is
present, `listSecrets` fetches every page, writes one line
`Secret ID: <identifier>` per identifier, in page order and then in-page
order, writes nothing else to standard output, logs nothing, and returns. -/
theorem listSecrets_prints_all (pages : List Page) (tr : List Event)
    (h : ∀ p ∈ pages, p.allPresent) :
    ∃ ev, listSecrets (pages.map Except.ok) tr = .ret () (tr ++ ev) ∧
      writesOf ev = (idsOf pages).map (fun id => "Secret ID: " ++ id ++ "\n") ∧
      stdoutOf ev = listing (idsOf pages) ∧
      fetches ev = pages.length ∧
      logsOf ev = [] := by
  have hl := listLoop_fetched pages [] (tr ++ [.newPager]) h
  simp only [List.append_nil, listLoop] at hl
  refine ⟨[.newPager] ++ loopEvents pages, ?_, ?_, ?_, ?_, ?_⟩
  · simp only [listSecrets, hl, List.append_assoc]
  · rw [writesOf_append, writesOf_loopEvents]; rfl
  · rw [stdoutOf_append, stdoutOf_loopEvents]
    simp [stdoutOf]
  · rw [fetches_append, fetches_loopEvents]
    simp [fetches]
  · rw [logsOf_append, logsOf_loopEvents]; rfl

theorem listSecrets_prints_all_witness :
    (∀ p ∈ [pageOf ["s1", "s2"], pageOf [], pageOf ["s1"]], p.allPresent) ∧
      ∃ ev, listSecrets ([pageOf ["s1", "s2"], pageOf [], pageOf ["s1"]].map Except.ok) []
          = .ret () ([] ++ ev) ∧
        writesOf ev = (idsOf [pageOf ["s1", "s2"], pageOf [], pageOf ["s1"]]).map
          (fun id => "Secret ID: " ++ id ++ "\n") ∧
        stdoutOf ev = listing (idsOf [pageOf ["s1", "s2"], pageOf [], pageOf ["s1"]]) ∧
        fetches ev = [pageOf ["s1", "s2"], pageOf [], pageOf ["s1"]].length ∧
        logsOf ev = [] :=
  ⟨by simp [Page.allPresent, pageOf],
    listSecrets_prints_all [pageOf ["s1", "s2"], pageOf [], pageOf ["s1"]] []
      (by simp [Page.allPresent, pageOf])⟩

/-- C4 as stated fails: when the first page holds the identifier `a`, an item
without identifier and the identifier `b`, and the fetch of the second page
fails, `listSecrets` writes the line of `a` only, not the lines of the
identifiers `a` and `b` of page 1, and the process ends in a panic before the
second page is asked for. -/
theorem listSecrets_nil_identifier :
    listSecrets [.ok ⟨[some ⟨some "a"⟩, some ⟨none⟩, some ⟨some "b"⟩]⟩, .error (.plain "boom")] []
        = .halt .panic [.newPager, .nextPage, .stdout "Secret ID: a\n"] ∧
      idsOf [⟨[some ⟨some "a"⟩, some ⟨none⟩, some ⟨some "b"⟩]⟩] = ["a", "b"] ∧
      stdoutOf [.newPager, .nextPage, .stdout "Secret ID: a\n"]
        ≠ listing (idsOf [⟨[some ⟨some "a"⟩, some ⟨none⟩, some ⟨some "b"⟩]⟩]) := by
  refine ⟨by rfl, by rfl, by decide⟩

/-- C4, amended: when page N is the first page whose fetch returns an error
and every identifier of pages 1..N-1 is present, `listSecrets` writes exactly
the lines `Secret ID: <id>` of the identifiers of pages 1..N-1, in page order
and then in-page order, logs the error, and ends the process with exit code 1
after N fetches, so that no later page is fetched. -/
theorem listSecrets_page_error (pre : List Page) (err : GoError)
    (post : List (Except GoError Page)) (tr : List Event)
    (h : ∀ p ∈ pre, p.allPresent) :
    ∃ ev, listSecrets (pre.map Except.ok ++ .error err :: post) tr
          = .halt (.exit 1) (tr ++ ev) ∧
      (Halt.exit 1).exitCode ≠ 0 ∧
      writesOf ev = (idsOf pre).map (fun id => "Secret ID: " ++ id ++ "\n") ∧
      stdoutOf ev = listing (idsOf pre) ∧
      fetches ev = pre.length + 1 ∧
      logsOf ev = [err.Error] := by
  have hl := listLoop_fetched pre (.error err :: post) (tr ++ [.newPager]) h
  simp only [listLoop] at hl
  refine ⟨[.newPager] ++ loopEvents pre ++ [.nextPage, .log err.Error], ?_, ?_, ?_, ?_, ?_, ?_⟩
  · simp only [listSecrets, hl, List.append_assoc]
  · decide
  · rw [writesOf_append, writesOf_append, writesOf_loopEvents]
    simp [writesOf]
  · rw [stdoutOf_append, stdoutOf_append, stdoutOf_loopEvents]
    simp [stdoutOf]
  · rw [fetches_append, fetches_append, fetches_loopEvents]
    simp [fetches]
  · rw [logsOf_append, logsOf_append, logsOf_loopEvents]
    simp [logsOf]

theorem listSecrets_page_error_witness :
    (∀ p ∈ [pageOf ["s1", "s2"]], p.allPresent) ∧
      ∃ ev, listSecrets ([pageOf ["s1", "s2"]].map Except.ok ++
            .error (.plain "boom") :: [.ok (pageOf ["s3"])]) []
          = .halt (.exit 1) ([] ++ ev) ∧
        (Halt.exit 1).exitCode ≠ 0 ∧
        writesOf ev = (idsOf [pageOf ["s1", "s2"]]).map (fun id => "Secret ID: " ++ id ++ "\n") ∧
        stdoutOf ev = listing (idsOf [pageOf ["s1", "s2"]]) ∧
        fetches ev = [pageOf ["s1", "s2"]].length + 1 ∧
        logsOf ev = [(GoError.plain "boom").Error] :=
  ⟨by simp [Page.allPresent, pageOf],
    listSecrets_page_error [pageOf ["s1", "s2"]] (.plain "boom") [.ok (pageOf ["s3"])] []
      (by simp [Page.allPresent, pageOf])⟩

/-- C6: when `GetSecret` fails with an error carrying status code 403, the
process exits with a non-zero code, writes nothing to standard output, logs
that permission is missing, and never invokes the listing operation. -/
theorem forbidden_is_fatal (w : World) (name : String) (resp : GetSecretResponse)
    (err : Option GoError) (respErr : ResponseError)
    (hrun : Answered w name resp err)
    (has : errorsAs err = some respErr) (h403 : respErr.StatusCode = 403) :
    (main w).halt.exitCode ≠ 0 ∧
      stdoutOf (main w).trace = "" ∧
      writesOf (main w).trace = [] ∧
      logsOf (main w).trace = ["No permission to access this secret\n"] ∧
      ∀ e ∈ (main w).trace, e.isListing = false := by
  obtain ⟨vaultURI, hmain⟩ := main_of_answered w name resp err hrun
  have hd : main w = ⟨.exit 1, [.newCredential, .newClient vaultURI, .getSecret name "",
      .log "No permission to access this secret\n"]⟩ := by
    rw [hmain]
    simp [dispatch, has, h403, StatusNotFound, StatusForbidden]
  rw [hd]
  refine ⟨by simp [Halt.exitCode], by rfl, by rfl, by rfl, ?_⟩
  intro e he
  simp only [List.mem_cons, List.mem_singleton, List.not_mem_nil, or_false] at he
  rcases he with rfl | rfl | rfl | rfl <;> rfl

theorem forbidden_is_fatal_witness :
    Answered (worldOf ⟨none⟩ (some (.wrapped "denied" (.response ⟨403, "forbidden"⟩)))
        [.ok (pageOf ["s1"])]) "foo" ⟨none⟩
        (some (.wrapped "denied" (.response ⟨403, "forbidden"⟩))) ∧
      (main (worldOf ⟨none⟩ (some (.wrapped "denied" (.response ⟨403, "forbidden"⟩)))
        [.ok (pageOf ["s1"])])).halt.exitCode ≠ 0 ∧
      stdoutOf (main (worldOf ⟨none⟩ (some (.wrapped "denied" (.response ⟨403, "forbidden"⟩)))
        [.ok (pageOf ["s1"])])).trace = "" :=
  ⟨worldOf_answered _ _ _,
    (forbidden_is_fatal _ "foo" ⟨none⟩ (some (.wrapped "denied" (.response ⟨403, "forbidden"⟩)))
      ⟨403, "forbidden"⟩ (worldOf_answered _ _ _) (by rfl) (by rfl)).1,
    (forbidden_is_fatal _ "foo" ⟨none⟩ (some (.wrapped "denied" (.response ⟨403, "forbidden"⟩)))
      ⟨403, "forbidden"⟩ (worldOf_answered _ _ _) (by rfl) (by rfl)).2.1⟩

/-- C7: when `GetSecret` fails with an error carrying a status code `c` other
than 404 and 403, the process exits with a non-zero code, writes nothing to
standard output, does not list, and logs one message, which contains the
decimal numeral of `c`. -/
theorem unrecognized_status_is_fatal (w : World) (name : String) (resp : GetSecretResponse)
    (err : Option GoError) (respErr : ResponseError) (c : Int)
    (hrun : Answered w name resp err)
    (has : errorsAs err = some respErr) (hc : respErr.StatusCode = c)
    (h404 : c ≠ 404) (h403 : c ≠ 403) :
    (main w).halt.exitCode ≠ 0 ∧
      stdoutOf (main w).trace = "" ∧
      writesOf (main w).trace = [] ∧
      (∃ msg, logsOf (main w).trace = [msg] ∧ mentionsCode msg c) ∧
      ∀ e ∈ (main w).trace, e.isListing = false := by
  obtain ⟨vaultURI, hmain⟩ := main_of_answered w name resp err hrun
  have hd : main w = ⟨.exit 1, [.newCredential, .newClient vaultURI, .getSecret name "",
      .log ("Unrecognized http error code " ++ fmtD c)]⟩ := by
    rw [hmain]
    simp [dispatch, has, hc, h404, h403, StatusNotFound, StatusForbidden]
  rw [hd]
  refine ⟨by simp [Halt.exitCode], by rfl, by rfl, ⟨_, rfl, ?_⟩, ?_⟩
  · unfold mentionsCode fmtD
    rw [String.data_append]
    exact (List.suffix_append _ _).isInfix
  · intro e he
    simp only [List.mem_cons, List.mem_singleton, List.not_mem_nil, or_false] at he
    rcases he with rfl | rfl | rfl | rfl <;> rfl

theorem unrecognized_status_is_fatal_witness :
    Answered (worldOf ⟨none⟩ (some (.response ⟨500, "server error"⟩)) []) "foo" ⟨none⟩
        (some (.response ⟨500, "server error"⟩)) ∧
      (main (worldOf ⟨none⟩ (some (.response ⟨500, "server error"⟩)) [])).halt.exitCode ≠ 0 ∧
      ∃ msg, logsOf (main (worldOf ⟨none⟩ (some (.response ⟨500, "server error"⟩)) [])).trace
          = [msg] ∧ mentionsCode msg 500 :=
  ⟨worldOf_answered _ _ _,
    (unrecognized_status_is_fatal _ "foo" ⟨none⟩ (some (.response ⟨500, "server error"⟩))
      ⟨500, "server error"⟩ 500 (worldOf_answered _ _ _) (by rfl) (by rfl)
      (by decide) (by decide)).1,
    (unrecognized_status_is_fatal _ "foo" ⟨none⟩ (some (.response ⟨500, "server error"⟩))
      ⟨500, "server error"⟩ 500 (worldOf_answered _ _ _) (by rfl) (by rfl)
      (by decide) (by decide)).2.2.2.1⟩

/-- C10: when `GetSecret` fails with a non-nil error that has no
`ResponseError` anywhere in its chain, the process exits with a non-zero code,
logs one diagnostic message, which ends with the text of the error, writes
nothing to standard output, and never invokes the listing operation. -/
theorem unclassified_error_is_fatal (w : World) (name : String) (resp : GetSecretResponse)
    (err : GoError)
    (hrun : Answered w name resp (some err))
    (hnone : err.findResponse = none) :
    (main w).halt.exitCode ≠ 0 ∧
      stdoutOf (main w).trace = "" ∧
      writesOf (main w).trace = [] ∧
      logsOf (main w).trace = ["Error getting secret from keyvault: " ++ err.Error] ∧
      ∀ e ∈ (main w).trace, e.isListing = false := by
  obtain ⟨vaultURI, hmain⟩ := main_of_answered w name resp (some err) hrun
  have hd : main w = ⟨.exit 1, [.newCredential, .newClient vaultURI, .getSecret name "",
      .log ("Error getting secret from keyvault: " ++ err.Error)]⟩ := by
    rw [hmain]
    simp [dispatch, errorsAs, hnone, fmtV]
  rw [hd]
  refine ⟨by simp [Halt.exitCode], by rfl, by rfl, by rfl, ?_⟩
  intro e he
  simp only [List.mem_cons, List.mem_singleton, List.not_mem_nil, or_false] at he
  rcases he with rfl | rfl | rfl | rfl <;> rfl

theorem unclassified_error_is_fatal_witness :
    Answered (worldOf ⟨none⟩ (some (.wrapped "request failed" (.plain "connection refused")))
        [.ok (pageOf ["s1"])]) "foo" ⟨none⟩
        (some (.wrapped "request failed" (.plain "connection refused"))) ∧
      (GoError.wrapped "request failed" (.plain "connection refused")).findResponse = none ∧
      (main (worldOf ⟨none⟩ (some (.wrapped "request failed" (.plain "connection refused")))
        [.ok (pageOf ["s1"])])).halt.exitCode ≠ 0 ∧
      stdoutOf (main (worldOf ⟨none⟩ (some (.wrapped "request failed" (.plain "connection refused")))
        [.ok (pageOf ["s1"])])).trace = "" :=
  ⟨worldOf_answered _ _ _, rfl,
    (unclassified_error_is_fatal _ "foo" ⟨none⟩
      (.wrapped "request failed" (.plain "connection refused"))
      (worldOf_answered _ _ _) rfl).1,
    (unclassified_error_is_fatal _ "foo" ⟨none⟩
      (.wrapped "request failed" (.plain "connection refused"))
      (worldOf_answered _ _ _) rfl).2.1⟩

end Azkvquery
